import Mathlib

/-!
Verification of the CrossSeedAuto plugin
(`plugins.v2/crossseedauto/__init__.py`).

The Python source is shallowly embedded below.  External collaborators
(download-engine client, site registry, media recognizer, per-site search
adapter) are modelled as explicit function parameters; the persisted
key-value store is modelled by threading the cache / history values through
the functions that the source reads and writes them with.  Python `dict`s
keyed by torrent hash are modelled as association lists with first-match
lookup; `dict` assignment is `setKey`, which replaces any existing binding
for the key.  Timestamps (`datetime.now()...`) are passed in as opaque
strings.  Site ids are modelled as (non-empty) strings.
-/

namespace CrossSeedAuto

/-- First-match lookup in an association list (`key in d` / `d[key]`). -/
def lookupKey {α : Type} (k : String) : List (String × α) → Option α
  | [] => none
  | (k2, v) :: rest => if k = k2 then some v else lookupKey k rest

/-- `d[key] = v`: bind `k` to `v`, dropping any previous binding of `k`. -/
def setKey {α : Type} (l : List (String × α)) (k : String) (v : α) : List (String × α) :=
  (k, v) :: l.filter (fun p => decide (p.1 ≠ k))

/-- Entry of the success map (`_update_success_cache`). -/
structure SuccessEntry where
  source_site : String
  target_sites : List String
  timestamp : String
deriving DecidableEq, Repr

/-- Entry of the failure map (`_update_failed_cache`).  A freshly created
entry has the `reason` key; an updated one additionally has `last_reason`. -/
structure FailedEntry where
  source_site : String
  reason : String
  last_reason : Option String
  retry_count : Nat
  timestamp : String
deriving DecidableEq, Repr

/-- The persisted cache: `{'success': {...}, 'failed': {...}}` (`_load_cache`). -/
structure Cache where
  success : List (String × SuccessEntry)
  failed : List (String × FailedEntry)
deriving DecidableEq, Repr

/-- `_update_success_cache`: overwrite/create the success entry for the hash. -/
def update_success_cache (c : Cache) (torrent_hash source_site : String)
    (target_sites : List String) (ts : String) : Cache :=
  { c with success := setKey c.success torrent_hash ⟨source_site, target_sites, ts⟩ }

/-- `_update_failed_cache`: increment `retry_count` of an existing entry
(recording the reason as `last_reason`), else create one with `retry_count = 1`. -/
def update_failed_cache (c : Cache) (torrent_hash source_site reason ts : String) : Cache :=
  match lookupKey torrent_hash c.failed with
  | some fe =>
      ⟨c.success, setKey c.failed torrent_hash ⟨fe.source_site, fe.reason, some reason, fe.retry_count + 1, ts⟩⟩
  | none =>
      ⟨c.success, setKey c.failed torrent_hash ⟨source_site, reason, none, 1, ts⟩⟩

/-- `_clear_cache` body: the cache value saved is a pair of empty maps. -/
def cleared_cache : Cache := ⟨[], []⟩

/-- One torrent as produced by `_scan_torrents` (already filtered to
seeding/uploading/stalledup/completed states by the scan). -/
structure Torrent where
  hash : String
  name : String
  size : Nat
  save_path : String
  tags : List String
  category : String
  tracker : String
deriving DecidableEq, Repr

/-- The configuration values `_filter_torrents` and friends read. -/
structure FilterConfig where
  excludeTags : List String
  targetSites : List String
  maxRetry : Nat
deriving DecidableEq, Repr

/-- A torrent that survived `_filter_torrents`, with the two derived fields
the filter adds (`torrent['source_site']`, `torrent['filtered_target_sites']`).
`source_site = none` models the dict key being absent. -/
structure AnnotatedTorrent where
  torrent : Torrent
  source_site : Option String
  filtered_target_sites : List String
deriving DecidableEq, Repr

/-- The failure-cache skip test of `_filter_torrents`:
`retry_count >= self._max_retry` (with `retry_count` defaulting to 0). -/
def retry_exceeded (cfg : FilterConfig) (cache : Cache) (torrent_hash : String) : Bool :=
  match lookupKey torrent_hash cache.failed with
  | some fe => decide (cfg.maxRetry ≤ fe.retry_count)
  | none => false

/-- `torrent['filtered_target_sites']` as computed by `_filter_torrents`:
a copy of the target list, with the source site removed when it occurs. -/
def compute_filtered_targets (cfg : FilterConfig) (source_site : Option String) : List String :=
  match source_site with
  | some s => if s ∈ cfg.targetSites then cfg.targetSites.filter (fun x => decide (x ≠ s)) else cfg.targetSites
  | none => cfg.targetSites

/-- The eligible-target-site list as the spec words it: the configured
target-site list minus the resolved source site. -/
def eligible_targets (cfg : FilterConfig) (source_site : Option String) : List String :=
  match source_site with
  | some s => cfg.targetSites.filter (fun x => decide (x ≠ s))
  | none => cfg.targetSites

/-- The body of the `_filter_torrents` loop for a single torrent;
`identify` models `_identify_site` (site-registry lookup by tracker domain).
`none` means the torrent is skipped. -/
def filter_one (cfg : FilterConfig) (identify : String → Option String)
    (cache : Cache) (t : Torrent) : Option AnnotatedTorrent :=
  if ∃ e ∈ cfg.excludeTags, e ∈ t.tags then none
  else if (lookupKey t.hash cache.success).isSome = true then none
  else if retry_exceeded cfg cache t.hash = true then none
  else if compute_filtered_targets cfg (identify t.tracker) = [] then none
  else some ⟨t, identify t.tracker, compute_filtered_targets cfg (identify t.tracker)⟩

/-- `_filter_torrents`: the loop over the scanned torrents. -/
def filter_torrents (cfg : FilterConfig) (identify : String → Option String)
    (cache : Cache) (torrents : List Torrent) : List AnnotatedTorrent :=
  torrents.filterMap (filter_one cfg identify cache)

/-- Media metadata as built by `_extract_from_mediainfo` / `_parse_torrent_name`
(all values already passed through `str`; `season`/`episode` hold `str(n)` of a
truthy value, or `""`). -/
structure Metadata where
  title : String
  year : String
  mtype : String
  tmdb_id : String
  season : String
  episode : String
  resolution : String
  src : String
  codec : String
  normalized_title : String
deriving DecidableEq, Repr

/-- Keep a character of the lowered title: the regex class `[a-z0-9\s]`
(`_normalize_title` replaces everything else by a space). -/
def keep_char (c : Char) : Bool :=
  (decide ('a' ≤ c) && decide (c ≤ 'z')) || (decide ('0' ≤ c) && decide (c ≤ '9')) || c.isWhitespace

/-- Replace every maximal whitespace run by a single space
(`re.sub(r'\s+', ' ', ...)`).  The Bool argument records whether the
previous character was whitespace. -/
def squeeze_ws_aux : Bool → List Char → List Char
  | _, [] => []
  | prevWs, c :: rest =>
    if c.isWhitespace then
      if prevWs then squeeze_ws_aux true rest
      else ' ' :: squeeze_ws_aux true rest
    else c :: squeeze_ws_aux false rest

def squeeze_ws (l : List Char) : List Char := squeeze_ws_aux false l

/-- Python `str.strip()`: drop leading and trailing whitespace. -/
def strip_ws (l : List Char) : List Char :=
  ((l.dropWhile Char.isWhitespace).reverse.dropWhile Char.isWhitespace).reverse

/-- `_normalize_title`: lower-case, replace every character outside
`[a-z0-9\s]` by a space, collapse whitespace runs, strip.
(ASCII-faithful; `Char.toLower`/`isWhitespace` stand in for the Python
unicode versions.) -/
def normalize_title (title : String) : String :=
  if title = "" then ""
  else
    String.mk (strip_ws (squeeze_ws ((title.data.map Char.toLower).map
      (fun c => if keep_char c then c else ' '))))

/-- Python `str.zfill(width)` for the non-negative strings used here. -/
def zfill (width : Nat) (s : String) : String :=
  if width ≤ s.length then s
  else String.mk (List.replicate (width - s.length) '0') ++ s

/-- `_build_search_keywords`: title, year, resolution, `S<2>`, `E<2>`,
each appended when truthy (non-empty), joined by single spaces. -/
def build_search_keywords (metadata : Metadata) : String :=
  let kw0 : List String := []
  let kw1 := if metadata.title ≠ "" then kw0 ++ [metadata.title] else kw0
  let kw2 := if metadata.year ≠ "" then kw1 ++ [metadata.year] else kw1
  let kw3 := if metadata.resolution ≠ "" then kw2 ++ [metadata.resolution] else kw2
  let kw4 := if metadata.season ≠ "" then kw3 ++ ["S" ++ zfill 2 metadata.season] else kw3
  let kw5 := if metadata.episode ≠ "" then kw4 ++ ["E" ++ zfill 2 metadata.episode] else kw4
  String.intercalate " " kw5

/-- The keyword string as claim C2 words it: built from the NORMALIZED title
(the source instead uses the raw `metadata['title']`). -/
def claimed_search_keywords (metadata : Metadata) : String :=
  let kw0 : List String := []
  let kw1 := if metadata.normalized_title ≠ "" then kw0 ++ [metadata.normalized_title] else kw0
  let kw2 := if metadata.year ≠ "" then kw1 ++ [metadata.year] else kw1
  let kw3 := if metadata.resolution ≠ "" then kw2 ++ [metadata.resolution] else kw2
  let kw4 := if metadata.season ≠ "" then kw3 ++ ["S" ++ zfill 2 metadata.season] else kw3
  let kw5 := if metadata.episode ≠ "" then kw4 ++ ["E" ++ zfill 2 metadata.episode] else kw4
  String.intercalate " " kw5

/-- A metadata value as `_parse_torrent_name` would build it for a movie
release name with a dot-separated title: the raw title keeps its dots and
capitals, the stored `normalized_title` does not. -/
def c2_metadata : Metadata :=
  { title := "The.Matrix", year := "1999", mtype := "电影", tmdb_id := "",
    season := "", episode := "", resolution := "1080p", src := "", codec := "",
    normalized_title := normalize_title "The.Matrix" }

/-- `_validate_file_size`.  The Python float arithmetic is modelled exactly
over `ℚ`; `tol` is the configured `_size_tolerance` in MB. -/
def validate_file_size (tol : ℚ) (source_size target_size : Nat) : Bool :=
  if source_size = 0 ∨ target_size = 0 then false
  else decide (|((source_size : ℚ)) - ((target_size : ℚ))| / (1024 * 1024) ≤ tol)

/-- A torrent as seen in the download engine's `get_torrents()` answer
(only the fields `_monitor_torrent_status` reads). -/
structure EngineTorrent where
  state : String
  hash : String
deriving DecidableEq, Repr

/-- Calls issued to the download-engine client. -/
inductive EngineCall where
  | addTorrent (url : String)
  | deleteWithFiles (hash : String)
deriving DecidableEq, Repr

/-- Python `str.lower()` (ASCII-faithful, character-wise). -/
def lower_string (s : String) : String := String.mk (s.data.map Char.toLower)

/-- The states `_monitor_torrent_status` deems "still downloading". -/
def downloading_states : List String := ["downloading", "metadl", "allocating"]

/-- The scan loop of `_monitor_torrent_status`: on the first torrent in a
downloading state, delete it with its files (when its hash is non-empty)
and report failure. -/
def monitor_scan : List EngineTorrent → Bool × List EngineCall
  | [] => (true, [])
  | t :: rest =>
    if lower_string t.state ∈ downloading_states then
      if t.hash = "" then (false, [])
      else (false, [EngineCall.deleteWithFiles t.hash])
    else monitor_scan rest

/-- `_monitor_torrent_status`.  `torrentsRead = none` models both a falsy
`get_torrents()` answer and an exception during the check (both paths
return `True` with no delete issued). -/
def monitor_torrent_status (torrentsRead : Option (List EngineTorrent)) : Bool × List EngineCall :=
  match torrentsRead with
  | none => (true, [])
  | some [] => (true, [])
  | some ts => monitor_scan ts

/-- One remote candidate as produced by the per-site search adapter
(`_parse_search_results` entries: id, title, size, url). -/
structure RemoteTorrent where
  id : String
  title : String
  size : Nat
  url : String
deriving DecidableEq, Repr

/-- A size-valid match (`_search_site` result entries). -/
structure SiteMatch where
  site_id : String
  site_name : String
  torrent_url : String
  torrent_id : String
  title : String
  size : Nat
deriving DecidableEq, Repr

/-- `_search_site`: query one site (the network request, site lookup and
HTML parsing are the external `siteSearch`; a failed request is the empty
list) and keep the candidates passing `_validate_file_size`. -/
def search_site (siteSearch : String → String → List RemoteTorrent)
    (siteName : String → String) (tol : ℚ)
    (site_id keywords : String) (source_size : Nat) : List SiteMatch :=
  (siteSearch site_id keywords).filterMap (fun r =>
    if validate_file_size tol source_size r.size = true then
      some ⟨site_id, siteName site_id, r.url, r.id, r.title, r.size⟩
    else none)

/-- `_search_and_validate`: build the keywords, bail out on an empty target
list or empty keywords, then collect the size-valid matches of every
eligible target site in order. -/
def search_and_validate (siteSearch : String → String → List RemoteTorrent)
    (siteName : String → String) (tol : ℚ)
    (a : AnnotatedTorrent) (metadata : Metadata) : List SiteMatch :=
  if a.filtered_target_sites = [] then []
  else if build_search_keywords metadata = "" then []
  else a.filtered_target_sites.flatMap (fun site_id =>
    search_site siteSearch siteName tol site_id (build_search_keywords metadata) a.torrent.size)

/-- `add_torrent_to_downloader`.  `engineAddOk` is the outcome of the
engine's `add_torrent` call (the split/default mode both call it);
`torrentsRead` is the torrent list read back by `_monitor_torrent_status`.
The second component lists the engine calls issued. -/
def add_torrent_to_downloader (engineAddOk : Bool)
    (torrentsRead : Option (List EngineTorrent)) (m : SiteMatch) : Bool × List EngineCall :=
  if m.torrent_url = "" then (false, [])
  else if engineAddOk then
    ((monitor_torrent_status torrentsRead).1,
      EngineCall.addTorrent m.torrent_url :: (monitor_torrent_status torrentsRead).2)
  else (false, [EngineCall.addTorrent m.torrent_url])

/-- One history record (`_save_history` argument). -/
structure HistoryRecord where
  torrent_name : String
  source_site : String
  target_site : String
  status : String
  timestamp : String
deriving DecidableEq, Repr

/-- `_save_history`: append, then keep only the most recent 100 records
(`history[-100:]`). -/
def save_history (history : List HistoryRecord) (record : HistoryRecord) : List HistoryRecord :=
  let h2 := history ++ [record]
  if 100 < h2.length then h2.drop (h2.length - 100) else h2

/-- The per-(torrent, match) body of the push loop in `_cross_seed_task`:
on success update the success cache with the SINGLE site id of this push
and append a success history record; on failure bump the failure cache and
append a failure record.  (`torrent.get('source_site', '')` is
`source_site.getD ""`.) -/
def push_pair (ok : Bool) (ts : String) (st : Cache × List HistoryRecord)
    (t : AnnotatedTorrent) (m : SiteMatch) : Cache × List HistoryRecord :=
  if ok then
    (update_success_cache st.1 t.torrent.hash (t.source_site.getD "") [m.site_id] ts,
      save_history st.2 ⟨t.torrent.name, t.source_site.getD "", m.site_name, "成功", ts⟩)
  else
    (update_failed_cache st.1 t.torrent.hash (t.source_site.getD "") "推送失败" ts,
      save_history st.2 ⟨t.torrent.name, t.source_site.getD "", m.site_name, "失败", ts⟩)

/-- The inner `for match in matches` loop of `_cross_seed_task`;
`pushFn` models the result of `_add_torrent_to_downloader`. -/
def push_matches (pushFn : AnnotatedTorrent → SiteMatch → Bool) (ts : String)
    (t : AnnotatedTorrent) : Cache × List HistoryRecord → List SiteMatch → Cache × List HistoryRecord
  | st, [] => st
  | st, m :: rest => push_matches pushFn ts t (push_pair (pushFn t m) ts st t m) rest

/-- The outer `for result in matched_results` loop of `_cross_seed_task`. -/
def run_pushes (pushFn : AnnotatedTorrent → SiteMatch → Bool) (ts : String) :
    Cache × List HistoryRecord → List (AnnotatedTorrent × List SiteMatch) → Cache × List HistoryRecord
  | st, [] => st
  | st, (t, ms) :: rest => run_pushes pushFn ts (push_matches pushFn ts t st ms) rest

/-- The `matched_results` list of one `_cross_seed_task` run: filter the
inventory, resolve metadata per torrent (`extract` models
`_extract_metadata`, `none` covering both a `None` result and an
exception), search and validate, and drop torrents with no match. -/
def run_matched_results (cfg : FilterConfig) (identify : String → Option String)
    (extract : Torrent → Option Metadata)
    (siteSearch : String → String → List RemoteTorrent) (siteName : String → String)
    (tol : ℚ) (cache : Cache) (torrents : List Torrent) :
    List (AnnotatedTorrent × List SiteMatch) :=
  ((filter_torrents cfg identify cache torrents).filterMap
      (fun a => (extract a.torrent).map (fun md => (a, md)))).filterMap
    (fun p =>
      if search_and_validate siteSearch siteName tol p.1 p.2 = [] then none
      else some (p.1, search_and_validate siteSearch siteName tol p.1 p.2))

/-- Every (hash, site id, outcome) for which the run attempts a push
(one `_add_torrent_to_downloader` call). -/
def push_attempts (cfg : FilterConfig) (identify : String → Option String)
    (extract : Torrent → Option Metadata)
    (siteSearch : String → String → List RemoteTorrent) (siteName : String → String)
    (tol : ℚ) (pushFn : AnnotatedTorrent → SiteMatch → Bool)
    (cache : Cache) (torrents : List Torrent) : List (String × String × Bool) :=
  (run_matched_results cfg identify extract siteSearch siteName tol cache torrents).flatMap
    (fun p => p.2.map (fun m => (p.1.torrent.hash, m.site_id, pushFn p.1 m)))

/-- One whole `_cross_seed_task` run over the persisted cache and history. -/
def run_cycle (cfg : FilterConfig) (identify : String → Option String)
    (extract : Torrent → Option Metadata)
    (siteSearch : String → String → List RemoteTorrent) (siteName : String → String)
    (tol : ℚ) (pushFn : AnnotatedTorrent → SiteMatch → Bool) (ts : String)
    (cache : Cache) (hist : List HistoryRecord) (torrents : List Torrent) :
    Cache × List HistoryRecord :=
  run_pushes pushFn ts (cache, hist)
    (run_matched_results cfg identify extract siteSearch siteName tol cache torrents)

/-- The cache writes the plugin ever performs between explicit clears. -/
inductive CacheOp where
  | recordSuccess (torrent_hash source_site : String) (target_sites : List String) (ts : String)
  | recordFailure (torrent_hash source_site reason ts : String)
  | clearAll
deriving DecidableEq, Repr

def apply_op (c : Cache) : CacheOp → Cache
  | CacheOp.recordSuccess h s tg ts => update_success_cache c h s tg ts
  | CacheOp.recordFailure h s r ts => update_failed_cache c h s r ts
  | CacheOp.clearAll => cleared_cache

def apply_ops (c : Cache) : List CacheOp → Cache
  | [] => c
  | op :: rest => apply_ops (apply_op c op) rest

/-- A Python attribute value: `init_plugin` stores a `bool` under the name
`_clear_cache`, shadowing the instance's method of the same name. -/
inductive PyAttr where
  | boolVal (b : Bool)
  | boundMethod
deriving DecidableEq, Repr

/-- Calling an attribute: a bound method runs the `_clear_cache` body
(saving empty maps); calling a `bool` raises `TypeError`. -/
def call_attr : PyAttr → Except String Cache
  | PyAttr.boundMethod => Except.ok cleared_cache
  | PyAttr.boolVal _ => Except.error "TypeError: bool object is not callable"

/-- The clear-cache block of `init_plugin`:
`self._clear_cache = config.get("clear_cache", False)` rebinds the
attribute to a bool BEFORE `if self._clear_cache: self._clear_cache()`
calls it, so the call goes to the bool, never to the method. -/
def init_plugin_clear (clearFlag : Bool) (persisted : Cache) : Except String Cache :=
  let attr := PyAttr.boolVal clearFlag
  if clearFlag then call_attr attr else Except.ok persisted

/-!  ## Helper lemmas  -/

theorem lookupKey_filter_ne {α : Type} (l : List (String × α)) (k k2 : String)
    (h : k2 ≠ k) :
    lookupKey k2 (l.filter (fun p => decide (p.1 ≠ k))) = lookupKey k2 l := by
  induction l with
  | nil => rfl
  | cons p rest ih =>
    cases p with
    | mk k3 v =>
      by_cases hp : k3 = k
      · rw [List.filter_cons, if_neg (by simp [hp])]
        rw [lookupKey, if_neg (fun hh => h (hh.trans hp))]
        exact ih
      · rw [List.filter_cons, if_pos (by simp [hp])]
        rw [lookupKey, lookupKey]
        by_cases hk : k2 = k3
        · simp [hk]
        · rw [if_neg hk, if_neg hk]
          exact ih

theorem lookupKey_setKey {α : Type} (l : List (String × α)) (k k2 : String) (v : α) :
    lookupKey k2 (setKey l k v) = if k2 = k then some v else lookupKey k2 l := by
  rw [setKey, lookupKey]
  by_cases h : k2 = k
  · simp [h]
  · rw [if_neg h, if_neg h]
    exact lookupKey_filter_ne l k k2 h

theorem update_success_cache_failed (c : Cache) (h s : String) (tg : List String) (ts : String) :
    (update_success_cache c h s tg ts).failed = c.failed := rfl

theorem update_failed_cache_success (c : Cache) (h s r ts : String) :
    (update_failed_cache c h s r ts).success = c.success := by
  unfold update_failed_cache
  cases lookupKey h c.failed <;> rfl

theorem lookupKey_update_success (c : Cache) (h s : String) (tg : List String) (ts h2 : String) :
    lookupKey h2 (update_success_cache c h s tg ts).success
      = if h2 = h then some ⟨s, tg, ts⟩ else lookupKey h2 c.success := by
  rw [update_success_cache]
  exact lookupKey_setKey c.success h h2 _

theorem lookupKey_update_failed_ne (c : Cache) (h s r ts h2 : String) (hne : h2 ≠ h) :
    lookupKey h2 (update_failed_cache c h s r ts).failed = lookupKey h2 c.failed := by
  unfold update_failed_cache
  cases lookupKey h c.failed with
  | none => simp only [lookupKey_setKey, if_neg hne]
  | some fe => simp only [lookupKey_setKey, if_neg hne]

theorem lookupKey_update_failed_self (c : Cache) (h s r ts : String) :
    lookupKey h (update_failed_cache c h s r ts).failed
      = some (match lookupKey h c.failed with
              | some fe => (⟨fe.source_site, fe.reason, some r, fe.retry_count + 1, ts⟩ : FailedEntry)
              | none => ⟨s, r, none, 1, ts⟩) := by
  unfold update_failed_cache
  cases lookupKey h c.failed with
  | none => simp [lookupKey_setKey]
  | some fe => simp [lookupKey_setKey]

theorem save_history_length (h : List HistoryRecord) (r : HistoryRecord) :
    (save_history h r).length = min 100 (h.length + 1) := by
  unfold save_history
  by_cases hl : 100 < (h ++ [r]).length
  · rw [if_pos hl, List.length_drop]
    simp only [List.length_append, List.length_cons, List.length_nil] at hl ⊢
    omega
  · rw [if_neg hl]
    simp only [List.length_append, List.length_cons, List.length_nil] at hl ⊢
    omega

theorem save_history_suffix (h : List HistoryRecord) (r : HistoryRecord) :
    save_history h r <:+ h ++ [r] := by
  unfold save_history
  by_cases hl : 100 < (h ++ [r]).length
  · rw [if_pos hl]
    exact List.drop_suffix _ _
  · rw [if_neg hl]

theorem foldl_save_history_spec (rs : List HistoryRecord) :
    ∀ init : List HistoryRecord, init.length ≤ 100 →
      (rs.foldl save_history init) <:+ (init ++ rs)
      ∧ (rs.foldl save_history init).length = min 100 (init.length + rs.length) := by
  induction rs with
  | nil =>
    intro init hle
    refine ⟨by simp, ?_⟩
    simp only [List.foldl_nil, List.length_nil, Nat.add_zero]
    omega
  | cons r rest ih =>
    intro init hle
    rw [List.foldl_cons]
    have h1 := save_history_length init r
    have h2 : (save_history init r).length ≤ 100 := by omega
    obtain ⟨hsuf, hlen⟩ := ih (save_history init r) h2
    constructor
    · refine hsuf.trans ?_
      obtain ⟨w, hw⟩ := save_history_suffix init r
      refine ⟨w, ?_⟩
      rw [← List.append_assoc, hw, List.append_assoc]
      simp
    · rw [hlen, h1]
      simp only [List.length_cons]
      omega

theorem compute_filtered_targets_eq (cfg : FilterConfig) (src : Option String) :
    compute_filtered_targets cfg src = eligible_targets cfg src := by
  cases src with
  | none => rfl
  | some s =>
    show (if s ∈ cfg.targetSites then cfg.targetSites.filter (fun x => decide (x ≠ s))
        else cfg.targetSites) = cfg.targetSites.filter (fun x => decide (x ≠ s))
    by_cases hm : s ∈ cfg.targetSites
    · rw [if_pos hm]
    · rw [if_neg hm]
      symm
      refine List.filter_eq_self.mpr ?_
      intro a ha
      simp only [decide_eq_true_eq]
      intro heq
      exact hm (heq ▸ ha)

theorem mem_eligible_targets_ne (cfg : FilterConfig) (s x : String)
    (hx : x ∈ eligible_targets cfg (some s)) : x ≠ s := by
  unfold eligible_targets at hx
  have := List.of_mem_filter hx
  simpa using this

theorem retry_exceeded_iff (cfg : FilterConfig) (cache : Cache) (h : String) :
    retry_exceeded cfg cache h = true ↔
      ∃ fe, lookupKey h cache.failed = some fe ∧ cfg.maxRetry ≤ fe.retry_count := by
  unfold retry_exceeded
  cases hl : lookupKey h cache.failed with
  | none => simp
  | some fe => simp

theorem filter_one_some (cfg : FilterConfig) (identify : String → Option String)
    (cache : Cache) (t : Torrent) (a : AnnotatedTorrent)
    (h : filter_one cfg identify cache t = some a) :
    a.torrent = t ∧ a.source_site = identify t.tracker
    ∧ a.filtered_target_sites = compute_filtered_targets cfg (identify t.tracker)
    ∧ (lookupKey t.hash cache.success).isSome = false
    ∧ retry_exceeded cfg cache t.hash = false := by
  unfold filter_one at h
  split_ifs at h with h1 h2 h3 h4
  injection h with h5
  subst h5
  refine ⟨rfl, rfl, rfl, ?_, ?_⟩
  · simpa using h2
  · simpa using h3

theorem filter_one_none_iff (cfg : FilterConfig) (identify : String → Option String)
    (cache : Cache) (t : Torrent) :
    filter_one cfg identify cache t = none ↔
      (∃ tag ∈ t.tags, tag ∈ cfg.excludeTags)
      ∨ (lookupKey t.hash cache.success).isSome = true
      ∨ (∃ fe, lookupKey t.hash cache.failed = some fe ∧ cfg.maxRetry ≤ fe.retry_count)
      ∨ eligible_targets cfg (identify t.tracker) = [] := by
  unfold filter_one
  rw [← retry_exceeded_iff cfg cache t.hash, ← compute_filtered_targets_eq cfg]
  have hex : (∃ e ∈ cfg.excludeTags, e ∈ t.tags) ↔ (∃ tag ∈ t.tags, tag ∈ cfg.excludeTags) := by
    constructor
    · rintro ⟨e, he, ht⟩; exact ⟨e, ht, he⟩
    · rintro ⟨e, ht, he⟩; exact ⟨e, he, ht⟩
  split_ifs with h1 h2 h3 h4
  · exact iff_of_true rfl (Or.inl (hex.mp h1))
  · exact iff_of_true rfl (Or.inr (Or.inl h2))
  · exact iff_of_true rfl (Or.inr (Or.inr (Or.inl h3)))
  · exact iff_of_true rfl (Or.inr (Or.inr (Or.inr h4)))
  · refine iff_of_false (by simp) ?_
    rw [not_or, not_or, not_or]
    exact ⟨fun hc => h1 (hex.mpr hc), h2, h3, h4⟩

theorem lookupKey_update_failed_some (c : Cache) (h s r ts : String) (fe : FailedEntry)
    (hf : lookupKey h c.failed = some fe) :
    lookupKey h (update_failed_cache c h s r ts).failed
      = some ⟨fe.source_site, fe.reason, some r, fe.retry_count + 1, ts⟩ := by
  unfold update_failed_cache
  rw [hf]
  simp [lookupKey_setKey]

theorem filter_torrents_self (cfg : FilterConfig) (identify : String → Option String)
    (cache : Cache) (torrents : List Torrent) (a : AnnotatedTorrent)
    (ha : a ∈ filter_torrents cfg identify cache torrents) :
    filter_one cfg identify cache a.torrent = some a := by
  obtain ⟨t, ht, hft⟩ := List.mem_filterMap.mp ha
  obtain ⟨h1, -, -, -, -⟩ := filter_one_some cfg identify cache t a hft
  rw [h1]
  exact hft

theorem excluded_not_in_filter (cfg : FilterConfig) (identify : String → Option String)
    (cache : Cache) (torrents : List Torrent) (a : AnnotatedTorrent) (h : String)
    (hex : (lookupKey h cache.success).isSome = true ∨ retry_exceeded cfg cache h = true)
    (ha : a ∈ filter_torrents cfg identify cache torrents) :
    a.torrent.hash ≠ h := by
  intro heq
  have hfo := filter_torrents_self cfg identify cache torrents a ha
  obtain ⟨-, -, -, hs, hr⟩ := filter_one_some cfg identify cache a.torrent a hfo
  rw [heq] at hs hr
  rcases hex with hx | hx
  · rw [hs] at hx
    exact Bool.false_ne_true hx
  · rw [hr] at hx
    exact Bool.false_ne_true hx

theorem mem_run_matched_results (cfg : FilterConfig) (identify : String → Option String)
    (extract : Torrent → Option Metadata)
    (siteSearch : String → String → List RemoteTorrent) (siteName : String → String)
    (tol : ℚ) (cache : Cache) (torrents : List Torrent)
    (p : AnnotatedTorrent × List SiteMatch)
    (hp : p ∈ run_matched_results cfg identify extract siteSearch siteName tol cache torrents) :
    p.1 ∈ filter_torrents cfg identify cache torrents ∧ p.2 ≠ [] := by
  unfold run_matched_results at hp
  obtain ⟨q, hq, hq2⟩ := List.mem_filterMap.mp hp
  obtain ⟨a, ha, ha2⟩ := List.mem_filterMap.mp hq
  obtain ⟨md, hmd, hqa⟩ := Option.map_eq_some'.mp ha2
  by_cases hms : search_and_validate siteSearch siteName tol q.1 q.2 = []
  · rw [if_pos hms] at hq2
    exact Option.noConfusion hq2
  · rw [if_neg hms] at hq2
    injection hq2 with hq3
    subst hq3
    constructor
    · show q.1 ∈ _
      rw [← hqa]
      exact ha
    · exact hms

theorem push_attempt_hash_mem (cfg : FilterConfig) (identify : String → Option String)
    (extract : Torrent → Option Metadata)
    (siteSearch : String → String → List RemoteTorrent) (siteName : String → String)
    (tol : ℚ) (pushFn : AnnotatedTorrent → SiteMatch → Bool)
    (cache : Cache) (torrents : List Torrent) (x : String × String × Bool)
    (hx : x ∈ push_attempts cfg identify extract siteSearch siteName tol pushFn cache torrents) :
    ∃ a ∈ filter_torrents cfg identify cache torrents, a.torrent.hash = x.1 := by
  unfold push_attempts at hx
  obtain ⟨p, hp, hx2⟩ := List.mem_flatMap.mp hx
  obtain ⟨m, hm, hx3⟩ := List.mem_map.mp hx2
  refine ⟨p.1, (mem_run_matched_results cfg identify extract siteSearch siteName tol
      cache torrents p hp).1, ?_⟩
  rw [← hx3]

theorem apply_ops_success_mono (ops : List CacheOp) :
    ∀ (c : Cache) (h : String), CacheOp.clearAll ∉ ops →
      (lookupKey h c.success).isSome = true →
      (lookupKey h (apply_ops c ops).success).isSome = true := by
  induction ops with
  | nil => intro c h _ hs; exact hs
  | cons op rest ih =>
    intro c h hno hs
    rw [apply_ops]
    refine ih _ h (fun hc => hno (List.mem_cons_of_mem _ hc)) ?_
    cases op with
    | recordSuccess h2 s tg ts =>
      show (lookupKey h (update_success_cache c h2 s tg ts).success).isSome = true
      rw [lookupKey_update_success]
      by_cases he : h = h2
      · rw [if_pos he]; rfl
      · rw [if_neg he]; exact hs
    | recordFailure h2 s r ts =>
      show (lookupKey h (update_failed_cache c h2 s r ts).success).isSome = true
      rw [update_failed_cache_success]
      exact hs
    | clearAll => exact absurd (List.mem_cons_self _ _) hno

theorem apply_ops_failed_mono (ops : List CacheOp) :
    ∀ (c : Cache) (h : String) (fe : FailedEntry), CacheOp.clearAll ∉ ops →
      lookupKey h c.failed = some fe →
      ∃ fe2, lookupKey h (apply_ops c ops).failed = some fe2
        ∧ fe.retry_count ≤ fe2.retry_count := by
  induction ops with
  | nil => intro c h fe _ hf; exact ⟨fe, hf, Nat.le_refl _⟩
  | cons op rest ih =>
    intro c h fe hno hf
    rw [apply_ops]
    have hno2 : CacheOp.clearAll ∉ rest := fun hc => hno (List.mem_cons_of_mem _ hc)
    cases op with
    | recordSuccess h2 s tg ts =>
      refine ih _ h fe hno2 ?_
      show lookupKey h (update_success_cache c h2 s tg ts).failed = some fe
      rw [update_success_cache_failed]
      exact hf
    | recordFailure h2 s r ts =>
      by_cases he : h = h2
      · subst he
        obtain ⟨fe2, hf2, hle⟩ := ih _ h _ hno2 (lookupKey_update_failed_some c h s r ts fe hf)
        exact ⟨fe2, hf2, Nat.le_trans (Nat.le_succ _) hle⟩
      · refine ih _ h fe hno2 ?_
        show lookupKey h (update_failed_cache c h2 s r ts).failed = some fe
        rw [lookupKey_update_failed_ne c h2 s r ts h he]
        exact hf
    | clearAll => exact absurd (List.mem_cons_self _ _) hno

theorem push_matches_failed_preserved (pushFn : AnnotatedTorrent → SiteMatch → Bool)
    (ts : String) (t : AnnotatedTorrent) (h : String) (ms : List SiteMatch) :
    ∀ st : Cache × List HistoryRecord,
      (∀ m ∈ ms, pushFn t m = false → t.torrent.hash ≠ h) →
      lookupKey h (push_matches pushFn ts t st ms).1.failed = lookupKey h st.1.failed := by
  induction ms with
  | nil => intro st _; rfl
  | cons m rest ih =>
    intro st hno
    rw [push_matches]
    rw [ih _ (fun m2 hm2 => hno m2 (List.mem_cons_of_mem _ hm2))]
    cases hpm : pushFn t m with
    | true =>
      simp only [push_pair, if_pos]
      rw [update_success_cache_failed]
    | false =>
      have hne := hno m (List.mem_cons_self _ _) hpm
      simp only [push_pair, Bool.false_eq_true, if_false]
      exact lookupKey_update_failed_ne st.1 t.torrent.hash _ _ ts h (fun hh => hne hh.symm)

theorem push_matches_success_preserved (pushFn : AnnotatedTorrent → SiteMatch → Bool)
    (ts : String) (t : AnnotatedTorrent) (h : String) (hne : t.torrent.hash ≠ h)
    (ms : List SiteMatch) :
    ∀ st : Cache × List HistoryRecord,
      lookupKey h (push_matches pushFn ts t st ms).1.success = lookupKey h st.1.success := by
  induction ms with
  | nil => intro st; rfl
  | cons m rest ih =>
    intro st
    rw [push_matches, ih]
    cases hpm : pushFn t m with
    | true =>
      simp only [push_pair, if_pos]
      rw [lookupKey_update_success, if_neg (fun hh => hne hh.symm)]
    | false =>
      simp only [push_pair, Bool.false_eq_true, if_false]
      rw [update_failed_cache_success]

theorem run_pushes_failed_preserved (pushFn : AnnotatedTorrent → SiteMatch → Bool)
    (ts : String) (h : String) (results : List (AnnotatedTorrent × List SiteMatch)) :
    ∀ st : Cache × List HistoryRecord,
      (∀ pr ∈ results, ∀ m ∈ pr.2, pushFn pr.1 m = false → pr.1.torrent.hash ≠ h) →
      lookupKey h (run_pushes pushFn ts st results).1.failed = lookupKey h st.1.failed := by
  induction results with
  | nil => intro st _; rfl
  | cons pr rest ih =>
    intro st hno
    cases pr with
    | mk t2 ms =>
      rw [run_pushes]
      rw [ih _ (fun pr2 hpr2 => hno pr2 (List.mem_cons_of_mem _ hpr2))]
      exact push_matches_failed_preserved pushFn ts t2 h ms st
        (fun m hm => hno (t2, ms) (List.mem_cons_self _ _) m hm)

theorem run_pushes_success_preserved (pushFn : AnnotatedTorrent → SiteMatch → Bool)
    (ts : String) (h : String) (results : List (AnnotatedTorrent × List SiteMatch)) :
    ∀ st : Cache × List HistoryRecord,
      (∀ pr ∈ results, pr.2 ≠ [] → pr.1.torrent.hash ≠ h) →
      lookupKey h (run_pushes pushFn ts st results).1.success = lookupKey h st.1.success := by
  induction results with
  | nil => intro st _; rfl
  | cons pr rest ih =>
    intro st hno
    cases pr with
    | mk t2 ms =>
      rw [run_pushes]
      rw [ih _ (fun pr2 hpr2 => hno pr2 (List.mem_cons_of_mem _ hpr2))]
      cases ms with
      | nil => rfl
      | cons m mrest =>
        exact push_matches_success_preserved pushFn ts t2 h
          (hno (t2, m :: mrest) (List.mem_cons_self _ _) (by simp)) (m :: mrest) st

theorem filter_one_congr (cfg : FilterConfig) (identify : String → Option String)
    (c1 c2 : Cache) (t : Torrent)
    (hs : lookupKey t.hash c1.success = lookupKey t.hash c2.success)
    (hf : lookupKey t.hash c1.failed = lookupKey t.hash c2.failed) :
    filter_one cfg identify c1 t = filter_one cfg identify c2 t := by
  unfold filter_one
  rw [hs]
  have hre : retry_exceeded cfg c1 t.hash = retry_exceeded cfg c2 t.hash := by
    unfold retry_exceeded
    rw [hf]
  rw [hre]

/-!  ## Claim theorems  -/

/-- C1: after a successful push, if the read state of the torrent is a
downloading state the stop-loss verifier returns failure and issues exactly
one delete-with-files call for that torrent's hash; if the read state is
`seeding` it returns success with no delete call; and if the engine's
torrent list cannot be retrieved (or an error occurs during the check) it
returns success without deleting anything. -/
theorem C1_stop_loss_verifier (t : EngineTorrent) :
    (lower_string t.state ∈ downloading_states → t.hash ≠ "" →
      monitor_torrent_status (some [t]) = (false, [EngineCall.deleteWithFiles t.hash]))
    ∧ (lower_string t.state = "seeding" → monitor_torrent_status (some [t]) = (true, []))
    ∧ monitor_torrent_status none = (true, []) := by
  refine ⟨?_, ?_, rfl⟩
  · intro hdl hhash
    show monitor_scan [t] = _
    rw [monitor_scan, if_pos hdl, if_neg hhash]
  · intro hseed
    show monitor_scan [t] = _
    rw [monitor_scan, if_neg (by rw [hseed]; decide)]
    rfl

/-- C1 witness: a `downloading` read triggers exactly one
delete-with-files; a `seeding` read triggers none. -/
theorem C1_stop_loss_verifier_witness :
    monitor_torrent_status (some [⟨"downloading", "abc"⟩])
        = (false, [EngineCall.deleteWithFiles "abc"])
    ∧ monitor_torrent_status (some [⟨"seeding", "abc"⟩]) = (true, []) :=
  ⟨(C1_stop_loss_verifier ⟨"downloading", "abc"⟩).1 (by decide) (by decide),
   (C1_stop_loss_verifier ⟨"seeding", "abc"⟩).2.1 (by decide)⟩

/-- C2 counterexample: for a resolved metadata with raw title
`"The.Matrix"`, the keyword string the code builds keeps the raw title
(`"The.Matrix 1999 1080p"`); the claim's normalized-title keyword string
is `"the matrix 1999 1080p"`, and the two differ. -/
theorem C2_keywords_counterexample :
    build_search_keywords c2_metadata = "The.Matrix 1999 1080p"
    ∧ claimed_search_keywords c2_metadata = "the matrix 1999 1080p"
    ∧ build_search_keywords c2_metadata ≠ claimed_search_keywords c2_metadata :=
  ⟨by decide, by decide, by decide⟩

/-- C2 (amended): the search keyword string is the RAW resolved title
(not the normalized title) followed by year, resolution, `S<2-digit>`
season and `E<2-digit>` episode, each included only when non-empty,
joined by single spaces. -/
theorem C2_keywords_amended (m : Metadata) :
    build_search_keywords m =
      String.intercalate " "
        ((if m.title = "" then [] else [m.title]) ++
          (if m.year = "" then [] else [m.year]) ++
          (if m.resolution = "" then [] else [m.resolution]) ++
          (if m.season = "" then [] else ["S" ++ zfill 2 m.season]) ++
          (if m.episode = "" then [] else ["E" ++ zfill 2 m.episode])) := by
  unfold build_search_keywords
  by_cases h1 : m.title = "" <;> by_cases h2 : m.year = "" <;>
    by_cases h3 : m.resolution = "" <;> by_cases h4 : m.season = "" <;>
    by_cases h5 : m.episode = "" <;> simp [h1, h2, h3, h4, h5]

/-- C3: the inventory filter is a pure function that skips a torrent iff a
tag is excluded, or the hash is in the success map, or it is in the failure
map with `retry_count ≥ maxRetry`, or its eligible target sites (the
configured targets minus the resolved source site) are empty; every
survivor is annotated with its resolved source site and its eligible
target sites, which never contain the source site. -/
theorem C3_inventory_filter (cfg : FilterConfig) (identify : String → Option String)
    (cache : Cache) (t : Torrent) :
    (filter_one cfg identify cache t = none ↔
      (∃ tag ∈ t.tags, tag ∈ cfg.excludeTags)
      ∨ (lookupKey t.hash cache.success).isSome = true
      ∨ (∃ fe, lookupKey t.hash cache.failed = some fe ∧ cfg.maxRetry ≤ fe.retry_count)
      ∨ eligible_targets cfg (identify t.tracker) = [])
    ∧ (∀ a, filter_one cfg identify cache t = some a →
        a.torrent = t ∧ a.source_site = identify t.tracker
        ∧ a.filtered_target_sites = eligible_targets cfg (identify t.tracker)
        ∧ ∀ s, a.source_site = some s → s ∉ a.filtered_target_sites)
    ∧ (∀ torrents : List Torrent,
        filter_torrents cfg identify cache torrents
          = torrents.filterMap (filter_one cfg identify cache)) := by
  refine ⟨filter_one_none_iff cfg identify cache t, ?_, fun _ => rfl⟩
  intro a ha
  obtain ⟨h1, h2, h3, -, -⟩ := filter_one_some cfg identify cache t a ha
  rw [compute_filtered_targets_eq] at h3
  refine ⟨h1, h2, h3, ?_⟩
  intro s hs hmem
  have heq : identify t.tracker = some s := h2.symm.trans hs
  rw [h3, heq] at hmem
  exact mem_eligible_targets_ne cfg s s hmem rfl

/-- C3 witness: a concrete surviving torrent is annotated with its source
site and the target list minus that site. -/
theorem C3_inventory_filter_witness :
    ((⟨⟨"h1", "n", 1, "p", ["tag"], "c", "tr"⟩, some "A", ["B"]⟩ : AnnotatedTorrent).torrent
        = ⟨"h1", "n", 1, "p", ["tag"], "c", "tr"⟩)
    ∧ (⟨⟨"h1", "n", 1, "p", ["tag"], "c", "tr"⟩, some "A", ["B"]⟩ : AnnotatedTorrent).source_site
        = (fun _ => some "A") "tr"
    ∧ (⟨⟨"h1", "n", 1, "p", ["tag"], "c", "tr"⟩, some "A", ["B"]⟩ : AnnotatedTorrent).filtered_target_sites
        = eligible_targets ⟨["ex"], ["A", "B"], 3⟩ ((fun _ => some "A") "tr")
    ∧ ∀ s, (⟨⟨"h1", "n", 1, "p", ["tag"], "c", "tr"⟩, some "A", ["B"]⟩ : AnnotatedTorrent).source_site
          = some s →
        s ∉ (⟨⟨"h1", "n", 1, "p", ["tag"], "c", "tr"⟩, some "A", ["B"]⟩ : AnnotatedTorrent).filtered_target_sites :=
  (C3_inventory_filter ⟨["ex"], ["A", "B"], 3⟩ (fun _ => some "A") ⟨[], []⟩
      ⟨"h1", "n", 1, "p", ["tag"], "c", "tr"⟩).2.1
    ⟨⟨"h1", "n", 1, "p", ["tag"], "c", "tr"⟩, some "A", ["B"]⟩ (by decide)

/-- C4 (code bug): `init_plugin` rebinds the attribute `_clear_cache` to the
configured bool before calling it, so with the clear flag set the call
`self._clear_cache()` raises `TypeError` and the cache is never cleared.
Had the method been reached, it resets both maps to empty, and on the
empty maps no hash is skipped on a cache ground. -/
theorem C4_clear_cache_bug :
    (∀ persisted : Cache, init_plugin_clear true persisted
        = Except.error "TypeError: bool object is not callable")
    ∧ cleared_cache = Cache.mk [] []
    ∧ (∀ h : String, lookupKey h cleared_cache.success = none
        ∧ lookupKey h cleared_cache.failed = none) :=
  ⟨fun _ => rfl, rfl, fun _ => ⟨rfl, rfl⟩⟩

/-- C5: across any sequence of cache updates without an explicit clear,
a hash in the success map never has a push attempted for it again, and a
failure entry that reached `maxRetry` keeps the torrent out of the filter
output in every subsequent cycle. -/
theorem C5_ledger_exclusion (cfg : FilterConfig) (identify : String → Option String)
    (extract : Torrent → Option Metadata)
    (siteSearch : String → String → List RemoteTorrent) (siteName : String → String)
    (tol : ℚ) (pushFn : AnnotatedTorrent → SiteMatch → Bool)
    (c : Cache) (ops : List CacheOp) (h : String)
    (hno : CacheOp.clearAll ∉ ops) :
    ((lookupKey h c.success).isSome = true →
      ∀ torrents, h ∉ (push_attempts cfg identify extract siteSearch siteName tol pushFn
          (apply_ops c ops) torrents).map Prod.fst)
    ∧ (∀ fe, lookupKey h c.failed = some fe → cfg.maxRetry ≤ fe.retry_count →
        ∀ torrents a, a ∈ filter_torrents cfg identify (apply_ops c ops) torrents →
          a.torrent.hash ≠ h) := by
  constructor
  · intro hs torrents hmem
    obtain ⟨x, hx, hx1⟩ := List.mem_map.mp hmem
    obtain ⟨a, ha, ha2⟩ := push_attempt_hash_mem cfg identify extract siteSearch siteName
      tol pushFn (apply_ops c ops) torrents x hx
    have hs2 := apply_ops_success_mono ops c h hno hs
    exact excluded_not_in_filter cfg identify (apply_ops c ops) torrents a h
      (Or.inl hs2) ha (ha2.trans hx1)
  · intro fe hf hge torrents a ha
    obtain ⟨fe2, hf2, hle⟩ := apply_ops_failed_mono ops c h fe hno hf
    have hrx : retry_exceeded cfg (apply_ops c ops) h = true := by
      unfold retry_exceeded
      rw [hf2]
      simp only [decide_eq_true_eq]
      omega
    exact excluded_not_in_filter cfg identify (apply_ops c ops) torrents a h
      (Or.inr hrx) ha

/-- C5 witness: a success-cached hash yields no push attempt after a
further failure record for another hash; a maxed-out failure entry keeps
its torrent out of a concrete filter pass. -/
theorem C5_ledger_exclusion_witness :
    "hs" ∉ (push_attempts ⟨[], ["A"], 3⟩ (fun _ => none) (fun _ => none)
        (fun _ _ => []) (fun _ => "") 0 (fun _ _ => true)
        (apply_ops ⟨[("hs", ⟨"S", ["A"], "ts"⟩)], [("hf", ⟨"S", "r", none, 3, "ts"⟩)]⟩
          [CacheOp.recordFailure "h2" "S" "r" "t2"]) []).map Prod.fst
    ∧ (⟨⟨"h2", "n", 1, "p", [], "c", "tr"⟩, none, ["A"]⟩ : AnnotatedTorrent).torrent.hash ≠ "hf" :=
  ⟨(C5_ledger_exclusion ⟨[], ["A"], 3⟩ (fun _ => none) (fun _ => none)
      (fun _ _ => []) (fun _ => "") 0 (fun _ _ => true)
      ⟨[("hs", ⟨"S", ["A"], "ts"⟩)], [("hf", ⟨"S", "r", none, 3, "ts"⟩)]⟩
      [CacheOp.recordFailure "h2" "S" "r" "t2"] "hs" (by decide)).1 (by decide) [],
   (C5_ledger_exclusion ⟨[], ["A"], 3⟩ (fun _ => none) (fun _ => none)
      (fun _ _ => []) (fun _ => "") 0 (fun _ _ => true)
      ⟨[("hs", ⟨"S", ["A"], "ts"⟩)], [("hf", ⟨"S", "r", none, 3, "ts"⟩)]⟩
      [CacheOp.recordFailure "h2" "S" "r" "t2"] "hf" (by decide)).2
        ⟨"S", "r", none, 3, "ts"⟩ (by decide) (by decide)
        [⟨"h2", "n", 1, "p", [], "c", "tr"⟩]
        ⟨⟨"h2", "n", 1, "p", [], "c", "tr"⟩, none, ["A"]⟩ (by decide)⟩

/-- C6: size validation accepts iff both sizes are non-zero and
`|sourceSize − remoteSize| / (1024*1024) ≤ tolerance`; with tolerance
0.01 MB the claim's three concrete instances hold. -/
theorem C6_validate_file_size (tol : ℚ) (s t : Nat) :
    (validate_file_size tol s t = true ↔
      s ≠ 0 ∧ t ≠ 0 ∧ |((s : ℚ)) - ((t : ℚ))| / (1024 * 1024) ≤ tol)
    ∧ validate_file_size (1/100) 100000000 100010300 = true
    ∧ validate_file_size (1/100) 100000000 100020000 = false
    ∧ (∀ x : Nat, 0 < x → validate_file_size (1/100) x 0 = false) := by
  refine ⟨?_, by norm_num [validate_file_size], by norm_num [validate_file_size], ?_⟩
  · unfold validate_file_size
    by_cases h : s = 0 ∨ t = 0
    · rw [if_pos h]
      simp only [Bool.false_eq_true, false_iff]
      rintro ⟨hs, ht, -⟩
      rcases h with h | h
      · exact hs h
      · exact ht h
    · push_neg at h
      rw [if_neg (by tauto)]
      simp [h.1, h.2]
  · intro x hx
    unfold validate_file_size
    simp

/-- C6 witness: `validate(5, 0)` is rejected. -/
theorem C6_validate_file_size_witness :
    0 < 5 ∧ validate_file_size (1/100) 5 0 = false :=
  ⟨by decide, (C6_validate_file_size (1/100) 5 0).2.2.2 5 (by decide)⟩

/-- C7: only failed push attempts write failure-ledger entries: if a hash
has no failed push attempt in a run, its failure entry is unchanged; and
if it has no push attempt at all (in particular, when the torrent was
dropped for lack of metadata, empty keywords, a failed search or no
size-valid match) both of its ledger entries and its next-run filter
outcome are unchanged — the torrent stays eligible. -/
theorem C7_per_item_failures (cfg : FilterConfig) (identify : String → Option String)
    (extract : Torrent → Option Metadata)
    (siteSearch : String → String → List RemoteTorrent) (siteName : String → String)
    (tol : ℚ) (pushFn : AnnotatedTorrent → SiteMatch → Bool) (ts : String)
    (cache : Cache) (hist : List HistoryRecord) (torrents : List Torrent) (t : Torrent)
    (hfail : ∀ p ∈ push_attempts cfg identify extract siteSearch siteName tol pushFn
        cache torrents, p.2.2 = false → p.1 ≠ t.hash) :
    lookupKey t.hash (run_cycle cfg identify extract siteSearch siteName tol pushFn ts
        cache hist torrents).1.failed = lookupKey t.hash cache.failed
    ∧ ((∀ p ∈ push_attempts cfg identify extract siteSearch siteName tol pushFn
          cache torrents, p.1 ≠ t.hash) →
        lookupKey t.hash (run_cycle cfg identify extract siteSearch siteName tol pushFn ts
            cache hist torrents).1.success = lookupKey t.hash cache.success
        ∧ filter_one cfg identify (run_cycle cfg identify extract siteSearch siteName tol
              pushFn ts cache hist torrents).1 t
          = filter_one cfg identify cache t) := by
  have hfailed : lookupKey t.hash (run_cycle cfg identify extract siteSearch siteName tol
      pushFn ts cache hist torrents).1.failed = lookupKey t.hash cache.failed := by
    unfold run_cycle
    refine run_pushes_failed_preserved pushFn ts t.hash _ (cache, hist) ?_
    intro pr hpr m hm hpm
    refine hfail (pr.1.torrent.hash, m.site_id, pushFn pr.1 m) ?_ hpm
    unfold push_attempts
    exact List.mem_flatMap.mpr ⟨pr, hpr, List.mem_map.mpr ⟨m, hm, rfl⟩⟩
  refine ⟨hfailed, fun hnone => ?_⟩
  have hsucc : lookupKey t.hash (run_cycle cfg identify extract siteSearch siteName tol
      pushFn ts cache hist torrents).1.success = lookupKey t.hash cache.success := by
    unfold run_cycle
    refine run_pushes_success_preserved pushFn ts t.hash _ (cache, hist) ?_
    intro pr hpr hne2
    cases hms : pr.2 with
    | nil => exact absurd hms hne2
    | cons m mrest =>
      refine hnone (pr.1.torrent.hash, m.site_id, pushFn pr.1 m) ?_
      unfold push_attempts
      refine List.mem_flatMap.mpr ⟨pr, hpr, List.mem_map.mpr ⟨m, ?_, rfl⟩⟩
      rw [hms]
      exact List.mem_cons_self _ _
  exact ⟨hsucc, filter_one_congr cfg identify _ cache t hsucc hfailed⟩

/-- C7 witness: a torrent dropped because metadata extraction failed
(no push attempts at all) leaves both ledger maps and the next filter
decision unchanged. -/
theorem C7_per_item_failures_witness :
    lookupKey "h1" (run_cycle ⟨[], ["A"], 3⟩ (fun _ => none) (fun _ => none)
        (fun _ _ => []) (fun _ => "") 0 (fun _ _ => true) "ts"
        ⟨[], [("h1", ⟨"S", "r", none, 1, "ts"⟩)]⟩ []
        [⟨"h1", "n", 1, "p", [], "c", "tr"⟩]).1.failed
      = lookupKey "h1" (Cache.mk [] [("h1", ⟨"S", "r", none, 1, "ts"⟩)]).failed
    ∧ (lookupKey "h1" (run_cycle ⟨[], ["A"], 3⟩ (fun _ => none) (fun _ => none)
          (fun _ _ => []) (fun _ => "") 0 (fun _ _ => true) "ts"
          ⟨[], [("h1", ⟨"S", "r", none, 1, "ts"⟩)]⟩ []
          [⟨"h1", "n", 1, "p", [], "c", "tr"⟩]).1.success
        = lookupKey "h1" (Cache.mk [] [("h1", ⟨"S", "r", none, 1, "ts"⟩)]).success
      ∧ filter_one ⟨[], ["A"], 3⟩ (fun _ => none)
            (run_cycle ⟨[], ["A"], 3⟩ (fun _ => none) (fun _ => none)
              (fun _ _ => []) (fun _ => "") 0 (fun _ _ => true) "ts"
              ⟨[], [("h1", ⟨"S", "r", none, 1, "ts"⟩)]⟩ []
              [⟨"h1", "n", 1, "p", [], "c", "tr"⟩]).1
            ⟨"h1", "n", 1, "p", [], "c", "tr"⟩
        = filter_one ⟨[], ["A"], 3⟩ (fun _ => none)
            (Cache.mk [] [("h1", ⟨"S", "r", none, 1, "ts"⟩)])
            ⟨"h1", "n", 1, "p", [], "c", "tr"⟩) :=
  have hthm := C7_per_item_failures ⟨[], ["A"], 3⟩ (fun _ => none) (fun _ => none)
    (fun _ _ => []) (fun _ => "") 0 (fun _ _ => true) "ts"
    ⟨[], [("h1", ⟨"S", "r", none, 1, "ts"⟩)]⟩ []
    [⟨"h1", "n", 1, "p", [], "c", "tr"⟩] ⟨"h1", "n", 1, "p", [], "c", "tr"⟩ (by decide)
  ⟨hthm.1, hthm.2 (by decide)⟩

/-- C8: starting from a stored history of at most 100 records, any number
of appends leaves at most 100 records, and the result is a suffix of the
full append sequence of exactly `min 100 total` records (the most recent
ones; eviction is oldest-first). -/
theorem C8_history_bounded (init rs : List HistoryRecord)
    (hinit : init.length ≤ 100) :
    (rs.foldl save_history init).length ≤ 100
    ∧ (rs.foldl save_history init) <:+ (init ++ rs)
    ∧ (rs.foldl save_history init).length = min 100 (init.length + rs.length) := by
  obtain ⟨hsuf, hlen⟩ := foldl_save_history_spec rs init hinit
  exact ⟨by omega, hsuf, hlen⟩

/-- C8 witness: appending one record to an empty history gives at most
100 records, the suffix property, and length `min 100 1`. -/
theorem C8_history_bounded_witness :
    (([⟨"n", "s", "t", "成功", "ts"⟩] : List HistoryRecord).foldl save_history []).length ≤ 100
    ∧ (([⟨"n", "s", "t", "成功", "ts"⟩] : List HistoryRecord).foldl save_history [])
        <:+ ([] ++ [⟨"n", "s", "t", "成功", "ts"⟩])
    ∧ (([⟨"n", "s", "t", "成功", "ts"⟩] : List HistoryRecord).foldl save_history []).length
        = min 100 ((List.length ([] : List HistoryRecord)) + 1) :=
  C8_history_bounded [] [⟨"n", "s", "t", "成功", "ts"⟩] (by decide)

/-- C9: every successful push overwrites the success entry with the single
site id of that push, so after two successful pushes of one torrent to two
sites within one run only the most recent site is recorded — the earlier
one is lost. -/
theorem C9_success_overwrite (c : Cache) (hist : List HistoryRecord)
    (t : AnnotatedTorrent) (m1 m2 : SiteMatch)
    (pushFn : AnnotatedTorrent → SiteMatch → Bool) (ts : String)
    (h1 : pushFn t m1 = true) (h2 : pushFn t m2 = true) :
    lookupKey t.torrent.hash (run_pushes pushFn ts (c, hist) [(t, [m1, m2])]).1.success
      = some ⟨t.source_site.getD "", [m2.site_id], ts⟩
    ∧ (m1.site_id ≠ m2.site_id →
        m1.site_id ∉ (⟨t.source_site.getD "", [m2.site_id], ts⟩ : SuccessEntry).target_sites) := by
  constructor
  · simp only [run_pushes, push_matches, push_pair, h1, h2, if_pos]
    simp [lookupKey_update_success]
  · intro hne
    simp [hne]

/-- C9 witness: two successful pushes of the same torrent; the final entry
records only the second site. -/
theorem C9_success_overwrite_witness :
    lookupKey "h1" (run_pushes (fun _ _ => true) "ts"
        (⟨[], []⟩, [])
        [(⟨⟨"h1", "n", 1, "p", [], "c", "tr"⟩, some "S", ["A", "B"]⟩,
          [⟨"A", "sa", "u", "1", "x", 1⟩, ⟨"B", "sb", "u", "2", "x", 1⟩])]).1.success
      = some ⟨"S", ["B"], "ts"⟩ :=
  (C9_success_overwrite ⟨[], []⟩ []
    ⟨⟨"h1", "n", 1, "p", [], "c", "tr"⟩, some "S", ["A", "B"]⟩
    ⟨"A", "sa", "u", "1", "x", 1⟩ ⟨"B", "sb", "u", "2", "x", 1⟩
    (fun _ _ => true) "ts" rfl rfl).1

/-- C10: a matched candidate with an empty download locator makes the push
return failure without issuing any engine call; the orchestrator then
writes a failure-ledger entry for the torrent's hash (`retry_count = 1`
when absent, incremented when present) and appends a failure history
record. -/
theorem C10_empty_locator (engineAddOk : Bool)
    (torrentsRead : Option (List EngineTorrent)) (c : Cache)
    (hist : List HistoryRecord) (t : AnnotatedTorrent) (m : SiteMatch)
    (ts : String) (hurl : m.torrent_url = "") :
    add_torrent_to_downloader engineAddOk torrentsRead m = (false, [])
    ∧ run_pushes (fun _ m2 => (add_torrent_to_downloader engineAddOk torrentsRead m2).1)
          ts (c, hist) [(t, [m])]
        = (update_failed_cache c t.torrent.hash (t.source_site.getD "") "推送失败" ts,
            save_history hist ⟨t.torrent.name, t.source_site.getD "", m.site_name, "失败", ts⟩)
    ∧ lookupKey t.torrent.hash
          (update_failed_cache c t.torrent.hash (t.source_site.getD "") "推送失败" ts).failed
        = some (match lookupKey t.torrent.hash c.failed with
                | some fe => (⟨fe.source_site, fe.reason, some "推送失败", fe.retry_count + 1, ts⟩ : FailedEntry)
                | none => ⟨t.source_site.getD "", "推送失败", none, 1, ts⟩) := by
  have hadd : add_torrent_to_downloader engineAddOk torrentsRead m = (false, []) := by
    unfold add_torrent_to_downloader
    rw [if_pos hurl]
  refine ⟨hadd, ?_, lookupKey_update_failed_self c t.torrent.hash _ _ ts⟩
  simp only [run_pushes, push_matches, push_pair, hadd]
  simp

/-- C10 witness: empty locator on a fresh hash creates a failed entry with
retry count 1 and a failure history record. -/
theorem C10_empty_locator_witness :
    add_torrent_to_downloader true none ⟨"A", "sa", "", "1", "x", 1⟩ = (false, [])
    ∧ run_pushes (fun _ m2 => (add_torrent_to_downloader true none m2).1) "ts"
          (⟨[], []⟩, [])
          [(⟨⟨"h1", "n", 1, "p", [], "c", "tr"⟩, some "S", ["A"]⟩,
            [⟨"A", "sa", "", "1", "x", 1⟩])]
        = (update_failed_cache ⟨[], []⟩ "h1" "S" "推送失败" "ts",
            save_history [] ⟨"n", "S", "sa", "失败", "ts"⟩)
    ∧ lookupKey "h1" (update_failed_cache ⟨[], []⟩ "h1" "S" "推送失败" "ts").failed
        = some (match lookupKey "h1" (Cache.mk [] []).failed with
                | some fe => (⟨fe.source_site, fe.reason, some "推送失败", fe.retry_count + 1, "ts"⟩ : FailedEntry)
                | none => ⟨"S", "推送失败", none, 1, "ts"⟩) :=
  C10_empty_locator true none ⟨[], []⟩ []
    ⟨⟨"h1", "n", 1, "p", [], "c", "tr"⟩, some "S", ["A"]⟩
    ⟨"A", "sa", "", "1", "x", 1⟩ "ts" rfl

end CrossSeedAuto
